import Mathlib

/-!
Shallow embedding of the validation/sanitization pipeline and the
conversation-turn pairing logic of the mcp-mem0 repository
(src/validators.py, src/constants.py, src/auto_memory.py).

Text is modelled as `List Char`.  Python regular-expression search
(`re.search` with `re.IGNORECASE`) over the fixed pattern set of the
source is embedded by a small nondeterministic matcher: a `Matcher`
consumes a prefix of the input and returns the list of possible
remainders.  Character classes are the ASCII fragment of the Python
classes, which is exact on every input considered here.
-/

namespace Mem0

/-- The apostrophe character (written via its code point). -/
def sq : Char := Char.ofNat 39

/-- The NUL character. -/
def nul : Char := Char.ofNat 0

/-- Python whitespace, ASCII fragment: space, tab, newline, carriage
return, vertical tab, form feed.  Used both for `str.split`/`str.strip`
and for the regex class `\s`. -/
def pyIsSpace (c : Char) : Bool :=
  c = ' ' || c = '\t' || c = '\n' || c = '\r' || c = Char.ofNat 11 || c = Char.ofNat 12

/-- The regex class `\w`, ASCII fragment: letters, digits, underscore. -/
def isWordChar (c : Char) : Bool :=
  c.isAlphanum || c = '_'

/-- A matcher consumes a prefix of the input and returns every possible
remainder.  `re.search` succeeds iff some matcher run at some start
position returns at least one remainder. -/
abbrev Matcher := List Char → List (List Char)

/-- Matcher for a single character satisfying `p`. -/
def mChar (p : Char → Bool) : Matcher := fun s =>
  match s with
  | [] => []
  | c :: r => if p c then [r] else []

/-- Matcher for a literal string, compared case-insensitively
(the source compiles every pattern with `re.IGNORECASE`). -/
def mStrCI : List Char → Matcher
  | [], s => [s]
  | _ :: _, [] => []
  | p :: ps, c :: r => if c.toLower = p.toLower then mStrCI ps r else []

/-- Sequencing of two matchers. -/
def mSeq (a b : Matcher) : Matcher := fun s =>
  ((a s).map b).flatten

/-- The empty matcher (matches the empty string). -/
def mEps : Matcher := fun s => [s]

/-- Sequencing of a list of matchers. -/
def mSeqs (ms : List Matcher) : Matcher :=
  ms.foldr mSeq mEps

/-- Alternation over a list of matchers. -/
def mAlts (ms : List Matcher) : Matcher := fun s =>
  (ms.map (fun m => m s)).flatten

/-- Kleene star of a character class (`c*` for a class `c`): drop any
initial run of class characters. -/
def mClassStar (p : Char → Bool) : Matcher
  | [] => [[]]
  | c :: r => (c :: r) :: (if p c then mClassStar p r else [])

/-- One-or-more of a character class (`c+`). -/
def mClassPlus (p : Char → Bool) : Matcher :=
  mSeq (mChar p) (mClassStar p)

/-- Optional single character (`c?`). -/
def mOptChar (p : Char → Bool) : Matcher := fun s =>
  s :: mChar p s

/-- The anchor `$` of Python `re` (no MULTILINE): matches at the end of
the input or immediately before a final newline. -/
def mEnd : Matcher := fun s =>
  if s = [] || s = ['\n'] then [s] else []

/-- `re.search`: try the matcher at every start position. -/
def reSearch (m : Matcher) : List Char → Bool
  | [] => !(m []).isEmpty
  | c :: r => !(m (c :: r)).isEmpty || reSearch m (r)

/-! ### The pattern sets of validators.py -/

/-- Regex `;\s*(DROP|DELETE|TRUNCATE|ALTER|CREATE)\s+`. -/
def sqlPat1 : Matcher :=
  mSeqs [mStrCI ";".toList, mClassStar pyIsSpace,
    mAlts [mStrCI "DROP".toList, mStrCI "DELETE".toList, mStrCI "TRUNCATE".toList,
      mStrCI "ALTER".toList, mStrCI "CREATE".toList],
    mClassPlus pyIsSpace]

/-- Regex `--\s*$` (SQL comment at end). -/
def sqlPat2 : Matcher :=
  mSeqs [mStrCI "--".toList, mClassStar pyIsSpace, mEnd]

/-- Regex for the boolean-tautology shape: an apostrophe, `OR`,
optional apostrophes and digits around an equals sign. -/
def sqlPat3 : Matcher :=
  mSeqs [mChar (· = sq), mClassStar pyIsSpace, mStrCI "OR".toList,
    mClassStar pyIsSpace, mOptChar (· = sq), mClassStar Char.isDigit,
    mChar (· = sq), mClassStar pyIsSpace, mChar (· = '='),
    mClassStar pyIsSpace, mOptChar (· = sq), mClassStar Char.isDigit]

/-- Regex `UNION\s+SELECT`. -/
def sqlPat4 : Matcher :=
  mSeqs [mStrCI "UNION".toList, mClassPlus pyIsSpace, mStrCI "SELECT".toList]

/-- Regex `INSERT\s+INTO`. -/
def sqlPat5 : Matcher :=
  mSeqs [mStrCI "INSERT".toList, mClassPlus pyIsSpace, mStrCI "INTO".toList]

/-- Regex `UPDATE\s+\w+\s+SET`. -/
def sqlPat6 : Matcher :=
  mSeqs [mStrCI "UPDATE".toList, mClassPlus pyIsSpace, mClassPlus isWordChar,
    mClassPlus pyIsSpace, mStrCI "SET".toList]

/-- The `sql_patterns` list of `contains_sql_patterns`. -/
def sql_patterns : List Matcher :=
  [sqlPat1, sqlPat2, sqlPat3, sqlPat4, sqlPat5, sqlPat6]

/-- `contains_sql_patterns` from validators.py: true iff some pattern
of the list matches somewhere in the text. -/
def contains_sql_patterns (text : List Char) : Bool :=
  sql_patterns.any (fun m => reSearch m text)

/-- Regex `<script`. -/
def susPat1 : Matcher := mStrCI "<script".toList

/-- Regex `javascript:`. -/
def susPat2 : Matcher := mStrCI "javascript:".toList

/-- Regex `on\w+\s*=` (inline event handlers). -/
def susPat3 : Matcher :=
  mSeqs [mStrCI "on".toList, mClassPlus isWordChar, mClassStar pyIsSpace,
    mChar (· = '=')]

/-- Regex `eval\s*\(`. -/
def susPat4 : Matcher :=
  mSeqs [mStrCI "eval".toList, mClassStar pyIsSpace, mChar (· = '(')]

/-- Regex `expression\s*\(`. -/
def susPat5 : Matcher :=
  mSeqs [mStrCI "expression".toList, mClassStar pyIsSpace, mChar (· = '(')]

/-- The `script_patterns` list of `contains_suspicious_patterns`. -/
def script_patterns : List Matcher :=
  [susPat1, susPat2, susPat3, susPat4, susPat5]

/-- `contains_suspicious_patterns` from validators.py. -/
def contains_suspicious_patterns (text : List Char) : Bool :=
  script_patterns.any (fun m => reSearch m text)

/-! ### Constants (constants.py) -/

/-- `MAX_MEMORY_SIZE` from constants.py. -/
def MAX_MEMORY_SIZE : Nat := 10000

/-- `MIN_MEMORY_SIZE` from constants.py. -/
def MIN_MEMORY_SIZE : Nat := 1

/-- `MAX_QUERY_LENGTH` from constants.py. -/
def MAX_QUERY_LENGTH : Nat := 500

/-- `MAX_SEARCH_LIMIT` from constants.py. -/
def MAX_SEARCH_LIMIT : Int := 100

/-- `ERROR_EMPTY_MEMORY` from constants.py. -/
def ERROR_EMPTY_MEMORY : String := "Cannot save empty memory"

/-- `ERROR_MEMORY_TOO_LARGE` from constants.py (an f-string with
`MAX_MEMORY_SIZE` interpolated). -/
def ERROR_MEMORY_TOO_LARGE : String := "Memory content too large (max 10000 characters)"

/-- `ERROR_EMPTY_QUERY` from constants.py. -/
def ERROR_EMPTY_QUERY : String := "Search query cannot be empty"

/-! ### The sanitize pipeline (validators.py, sanitize_text) -/

/-- Python `str.strip()`: remove leading and trailing whitespace. -/
def pyStrip (s : List Char) : List Char :=
  ((s.dropWhile pyIsSpace).reverse.dropWhile pyIsSpace).reverse

/-- Python `str.split()` with no argument: split on runs of whitespace,
dropping empty fields.  Written structurally (a whitespace character
closes the current word; a non-whitespace character extends the word
that the recursive call opened); the lemmas `pySplit_word` and
`pySplit_space` below recover the usual description of taking a word
up to the next whitespace and dropping the separator run. -/
def pySplit : List Char → List (List Char)
  | [] => []
  | c :: r =>
    if pyIsSpace c then pySplit r
    else
      match r, pySplit r with
      | [], _ => [[c]]
      | d :: _, rest =>
        if pyIsSpace d then [c] :: rest
        else
          match rest with
          | [] => [[c]]
          | w :: ws => (c :: w) :: ws

/-- Python `' '.join(words)`: interleave single spaces. -/
def joinSpace : List (List Char) → List Char
  | [] => []
  | [w] => w
  | w :: ws => w ++ ' ' :: joinSpace ws

/-- A single `str.replace` step with a one-character needle. -/
def replaceChar (c : Char) (rep : List Char) : List Char → List Char
  | [] => []
  | d :: r => (if d = c then rep else [d]) ++ replaceChar c rep r

/-- Python `html.escape` with `quote=True` (the default used by the
source): replace `&`, `<`, `>`, `"`, and the apostrophe, in this
order. -/
def html_escape (s : List Char) : List Char :=
  replaceChar sq "&#x27;".toList
    (replaceChar '"' "&quot;".toList
      (replaceChar '>' "&gt;".toList
        (replaceChar '<' "&lt;".toList
          (replaceChar '&' "&amp;".toList s))))

/-- The replacement text for a run of `k` newlines under the regex
substitution `re.sub(r'\n{3,}', '\n\n', ...)`: runs of three or more
newlines become exactly two. -/
def capRun (k : Nat) : List Char :=
  if 3 ≤ k then ['\n', '\n'] else List.replicate k '\n'

/-- Worker for the newline-capping substitution; `k` counts the
pending run of newlines already consumed. -/
def capNewlinesAux : Nat → List Char → List Char
  | k, [] => capRun k
  | k, c :: r =>
    if c = '\n' then capNewlinesAux (k + 1) r
    else capRun k ++ c :: capNewlinesAux 0 r

/-- `re.sub(r'\n{3,}', '\n\n', s)`: cap each maximal run of newlines
at two. -/
def capNewlines (s : List Char) : List Char := capNewlinesAux 0 s

/-- `sanitize_text` from validators.py: empty input short-circuits;
otherwise remove NUL bytes, escape HTML, collapse whitespace via
`' '.join(text.split())`, cap newline runs, and strip. -/
def sanitize_text (text : List Char) : List Char :=
  if text.isEmpty then []
  else
    pyStrip (capNewlines (joinSpace (pySplit
      (html_escape (text.filter (fun c => c ≠ nul))))))

/-! ### The validators (validators.py) -/

/-- `validate_memory_content` from validators.py. -/
def validate_memory_content (content : List Char) : Bool × Option String :=
  if content.isEmpty || (pyStrip content).isEmpty then
    (false, some ERROR_EMPTY_MEMORY)
  else if content.length < MIN_MEMORY_SIZE then
    (false, some "Memory content too short (minimum 1 character)")
  else if MAX_MEMORY_SIZE < content.length then
    (false, some ERROR_MEMORY_TOO_LARGE)
  else if contains_suspicious_patterns content then
    (false, some "Memory content contains suspicious patterns")
  else
    (true, none)

/-- `validate_search_query` from validators.py. -/
def validate_search_query (query : List Char) : Bool × Option String :=
  if query.isEmpty || (pyStrip query).isEmpty then
    (false, some ERROR_EMPTY_QUERY)
  else if MAX_QUERY_LENGTH < query.length then
    (false, some "Query too long (maximum 500 characters)")
  else if contains_sql_patterns query then
    (false, some "Query contains invalid characters")
  else
    (true, none)

/-- A Python value passed to `validate_limit`: either an `int` (which
in Python includes `bool`) or a value of any other type; the source
discriminates with `isinstance(limit, int)`. -/
inductive PyLimit
  | intVal (n : Int)
  | nonInt

/-- `validate_limit` from validators.py. -/
def validate_limit : PyLimit → Bool × Option String
  | .nonInt => (false, some "Limit must be an integer")
  | .intVal n =>
    if n < 1 then (false, some "Limit must be at least 1")
    else if MAX_SEARCH_LIMIT < n then (false, some "Limit cannot exceed 100")
    else (true, none)

/-- `validate_conversation_data` from validators.py: each side goes
through `validate_memory_content` (failures prefixed with the side),
then a combined raw-length guard against `MAX_MEMORY_SIZE * 2`. -/
def validate_conversation_data (user_message assistant_message : List Char) :
    Bool × Option String :=
  match validate_memory_content user_message with
  | (false, err) => (false, some ("User message: " ++ err.getD "None"))
  | (true, _) =>
    match validate_memory_content assistant_message with
    | (false, err) => (false, some ("Assistant message: " ++ err.getD "None"))
    | (true, _) =>
      if MAX_MEMORY_SIZE * 2 < user_message.length + assistant_message.length then
        (false, some "Conversation too large to save")
      else
        (true, none)

/-! ### The Turn Tracker (auto_memory.py, auto_save_message) -/

/-- A chat-history entry, as the dict appended by `auto_save_message`:
`{"role": role, "content": content, "timestamp": timestamp}`. -/
structure Message where
  role : String
  content : String
  timestamp : Nat
deriving DecidableEq

/-- A parsed Python JSON value, the possible results of
`json.loads`. -/
inductive PyJson
  | null
  | bool (b : Bool)
  | num (n : Int)
  | str (s : String)
  | arr (elems : List PyJson)
  | obj (fields : List (String × PyJson))

/-- Python `dict.get(key, default)` on a parsed JSON object. -/
def dictGet (fields : List (String × PyJson)) (key : String) (d : PyJson) : PyJson :=
  match fields.find? (fun p => p.1 == key) with
  | some p => p.2
  | none => d

/-- The observable outcome of one `auto_save_message` call:
either the conversation-branch outcomes (a saved structured turn, the
JSON-decode error string, or an exception caught by the outer handler,
as raised by `.get` on a non-dict payload), or the single-message
branch with the optionally emitted (user, assistant) turn. -/
inductive AutoSaveResult
  | savedConversation (userContent assistantContent : PyJson)
  | invalidJsonError
  | raisedError
  | savedMessage (role : String) (turn : Option (String × String))

/-- `auto_save_message` from auto_memory.py, as a function of the
chat-history buffer.  `parsed` models the outcome of
`json.loads(content)` (`none` for a `JSONDecodeError`); it is consulted
only in the `role == "conversation"` branch, which never touches the
buffer.  In every other branch the message is appended and, for an
assistant message with at least one predecessor, the source walks
negative indices `-2, -3, ...` until it finds role `"user"`; that walk
is embedded as `find?` over the reversed history without its last
(just-appended) element. -/
def auto_save_message (history : List Message) (role content : String)
    (parsed : Option PyJson) (timestamp : Nat) : List Message × AutoSaveResult :=
  if role = "conversation" then
    match parsed with
    | none => (history, .invalidJsonError)
    | some (.obj fields) =>
      (history, .savedConversation (dictGet fields "user" (.str ""))
        (dictGet fields "assistant" (.str "")))
    | some _ => (history, .raisedError)
  else
    let h := history ++ [⟨role, content, timestamp⟩]
    if role = "assistant" ∧ 2 ≤ h.length then
      match (h.take (h.length - 1)).reverse.find? (fun m => m.role == "user") with
      | some u => (h, .savedMessage role (some (u.content, content)))
      | none => (h, .savedMessage role none)
    else
      (h, .savedMessage role none)

/-! ### Lemmas about the sanitize pipeline -/

theorem pySplit_nil : pySplit [] = [] := rfl

theorem pySplit_space {c : Char} {r : List Char} (h : pyIsSpace c = true) :
    pySplit (c :: r) = pySplit r := by
  simp [pySplit, h]

theorem pySplit_word {c : Char} {r : List Char} (h : pyIsSpace c = false) :
    pySplit (c :: r) =
      (c :: r.takeWhile (fun d => !pyIsSpace d)) ::
        pySplit (r.dropWhile (fun d => !pyIsSpace d)) := by
  induction r generalizing c with
  | nil => simp [pySplit, h]
  | cons d r' ih =>
    by_cases hd : pyIsSpace d = true
    · rw [pySplit.eq_def]
      simp [h, hd, List.takeWhile_cons, List.dropWhile_cons, pySplit_space hd]
    · have hd' : pyIsSpace d = false := by simpa using hd
      rw [pySplit.eq_def]
      simp only [h, hd', Bool.false_eq_true, if_false]
      rw [ih hd']
      simp [List.takeWhile_cons, List.dropWhile_cons, hd']

/-- Worker for `pySplit_words`, by induction on a length bound. -/
theorem pySplit_words_aux : ∀ (n : Nat) (t : List Char), t.length ≤ n →
    ∀ w ∈ pySplit t, w ≠ [] ∧ ∀ c ∈ w, pyIsSpace c = false ∧ c ∈ t := by
  intro n
  induction n with
  | zero =>
    intro t hlen w hw
    have ht : t = [] := by cases t <;> simp_all
    subst ht; simp [pySplit_nil] at hw
  | succ n ih =>
    intro t hlen w hw
    match t with
    | [] => simp [pySplit_nil] at hw
    | c :: r =>
      by_cases hc : pyIsSpace c = true
      · rw [pySplit_space hc] at hw
        have hr : r.length ≤ n := by simp at hlen; omega
        obtain ⟨h1, h2⟩ := ih r hr w hw
        exact ⟨h1, fun d hd => ⟨(h2 d hd).1, List.mem_cons_of_mem c (h2 d hd).2⟩⟩
      · have hc' : pyIsSpace c = false := by simpa using hc
        rw [pySplit_word hc'] at hw
        rcases List.mem_cons.mp hw with hw1 | hw2
        · subst hw1
          refine ⟨by simp, fun d hd => ?_⟩
          rcases List.mem_cons.mp hd with hd1 | hd2
          · cases hd1; exact ⟨hc', List.mem_cons_self _ _⟩
          · refine ⟨by simpa using List.mem_takeWhile_imp hd2,
              List.mem_cons_of_mem c ((List.takeWhile_sublist _).mem hd2)⟩
        · have hr : (r.dropWhile (fun d => !pyIsSpace d)).length ≤ n := by
            have := (List.dropWhile_sublist (l := r) (fun d => !pyIsSpace d)).length_le
            simp at hlen; omega
          obtain ⟨h1, h2⟩ := ih _ hr w hw2
          exact ⟨h1, fun d hd => ⟨(h2 d hd).1,
            List.mem_cons_of_mem c ((List.dropWhile_sublist _).mem (h2 d hd).2)⟩⟩

/-- Every word produced by `pySplit` is nonempty, free of whitespace,
and made of characters of the input. -/
theorem pySplit_words {t : List Char} :
    ∀ w ∈ pySplit t, w ≠ [] ∧ ∀ c ∈ w, pyIsSpace c = false ∧ c ∈ t :=
  pySplit_words_aux t.length t le_rfl

/-- Splitting a single whitespace-free nonempty word returns it alone. -/
theorem pySplit_single {w : List Char} (hne : w ≠ [])
    (hw : ∀ c ∈ w, pyIsSpace c = false) : pySplit w = [w] := by
  cases w with
  | nil => exact absurd rfl hne
  | cons c w' =>
    have hc : pyIsSpace c = false := hw c (List.mem_cons_self c w')
    rw [pySplit_word hc]
    have htk : w'.takeWhile (fun d => !pyIsSpace d) = w' := by
      rw [List.takeWhile_eq_self_iff]
      intro d hd; simp [hw d (List.mem_cons_of_mem c hd)]
    have hdr : w'.dropWhile (fun d => !pyIsSpace d) = [] := by
      rw [List.dropWhile_eq_nil_iff]
      intro d hd; simp [hw d (List.mem_cons_of_mem c hd)]
    rw [htk, hdr, pySplit_nil]

/-- Splitting a word followed by a space peels off exactly that word. -/
theorem pySplit_word_append {w z : List Char} (hne : w ≠ [])
    (hw : ∀ c ∈ w, pyIsSpace c = false) :
    pySplit (w ++ ' ' :: z) = w :: pySplit z := by
  cases w with
  | nil => exact absurd rfl hne
  | cons c w' =>
    have hc : pyIsSpace c = false := hw c (List.mem_cons_self c w')
    have hall : ∀ d ∈ w', (fun d => !pyIsSpace d) d = true := by
      intro d hd; simp [hw d (List.mem_cons_of_mem c hd)]
    rw [List.cons_append, pySplit_word hc,
      List.takeWhile_append_of_pos hall, List.dropWhile_append_of_pos hall]
    have h1 : List.takeWhile (fun d => !pyIsSpace d) (' ' :: z) = [] := by
      simp [List.takeWhile_cons, pyIsSpace]
    have h2 : List.dropWhile (fun d => !pyIsSpace d) (' ' :: z) = ' ' :: z := by
      simp [List.dropWhile_cons, pyIsSpace]
    rw [h1, h2, pySplit_space (by simp [pyIsSpace])]
    simp

/-- `pySplit` is a left inverse of `joinSpace` on lists of nonempty
whitespace-free words. -/
theorem pySplit_joinSpace {ws : List (List Char)}
    (h : ∀ w ∈ ws, w ≠ [] ∧ ∀ c ∈ w, pyIsSpace c = false) :
    pySplit (joinSpace ws) = ws := by
  induction ws with
  | nil => rfl
  | cons w ws ih =>
    match ws with
    | [] =>
      have := h w (List.mem_cons_self w [])
      simpa [joinSpace] using pySplit_single this.1 this.2
    | w' :: ws' =>
      have hw := h w (List.mem_cons_self w _)
      rw [show joinSpace (w :: w' :: ws') = w ++ ' ' :: joinSpace (w' :: ws') from rfl,
        pySplit_word_append hw.1 hw.2,
        ih (fun v hv => h v (List.mem_cons_of_mem w hv))]

theorem joinSpace_cons (w : List Char) (ws : List (List Char)) :
    ∃ z, joinSpace (w :: ws) = w ++ z := by
  cases ws with
  | nil => exact ⟨[], by simp [joinSpace]⟩
  | cons w' ws' => exact ⟨' ' :: joinSpace (w' :: ws'), rfl⟩

/-- Every character of a joined word list is a space or a character of
one of the words. -/
theorem joinSpace_chars {ws : List (List Char)} :
    ∀ c ∈ joinSpace ws, c = ' ' ∨ ∃ w ∈ ws, c ∈ w := by
  induction ws with
  | nil => intro c hc; simp [joinSpace] at hc
  | cons w ws ih =>
    intro c hc
    cases ws with
    | nil =>
      simp only [joinSpace] at hc
      exact Or.inr ⟨w, List.mem_cons_self w [], hc⟩
    | cons w' ws' =>
      rw [show joinSpace (w :: w' :: ws') = w ++ ' ' :: joinSpace (w' :: ws') from rfl] at hc
      rcases List.mem_append.mp hc with h1 | h2
      · exact Or.inr ⟨w, List.mem_cons_self w _, h1⟩
      · rcases List.mem_cons.mp h2 with h3 | h4
        · exact Or.inl h3
        · rcases ih c h4 with h5 | ⟨v, hv, hcv⟩
          · exact Or.inl h5
          · exact Or.inr ⟨v, List.mem_cons_of_mem w hv, hcv⟩

/-- The reversal of a join of nonempty whitespace-free words is empty
or starts with a non-whitespace character. -/
theorem joinSpace_reverse_head {ws : List (List Char)}
    (h : ∀ w ∈ ws, w ≠ [] ∧ ∀ c ∈ w, pyIsSpace c = false) :
    ws = [] ∨ ∃ c z, (joinSpace ws).reverse = c :: z ∧ pyIsSpace c = false := by
  induction ws with
  | nil => exact Or.inl rfl
  | cons w ws ih =>
    refine Or.inr ?_
    obtain ⟨hwne, hwch⟩ := h w (List.mem_cons_self w _)
    cases ws with
    | nil =>
      simp only [joinSpace]
      obtain ⟨c, z, hcz⟩ := List.exists_cons_of_ne_nil (by simpa using hwne :
        w.reverse ≠ [])
      refine ⟨c, z, hcz, ?_⟩
      exact hwch c (by rw [← List.mem_reverse, hcz]; exact List.mem_cons_self _ _)
    | cons w' ws' =>
      rcases ih (fun v hv => h v (List.mem_cons_of_mem w hv)) with h1 | ⟨c, z, hcz, hcsp⟩
      · exact absurd h1 (by simp)
      · refine ⟨c, z ++ ' ' :: w.reverse, ?_, hcsp⟩
        rw [show joinSpace (w :: w' :: ws') = w ++ ' ' :: joinSpace (w' :: ws') from rfl,
          List.reverse_append, List.reverse_cons, List.append_assoc] at *
        simp only [hcz]
        simp

/-- Joined nonempty whitespace-free words are left unchanged by
`pyStrip`. -/
theorem pyStrip_joinSpace {ws : List (List Char)}
    (h : ∀ w ∈ ws, w ≠ [] ∧ ∀ c ∈ w, pyIsSpace c = false) :
    pyStrip (joinSpace ws) = joinSpace ws := by
  cases ws with
  | nil => rfl
  | cons w ws =>
    obtain ⟨hwne, hwch⟩ := h w (List.mem_cons_self w _)
    have hdrop : (joinSpace (w :: ws)).dropWhile pyIsSpace = joinSpace (w :: ws) := by
      obtain ⟨z, hz⟩ := joinSpace_cons w ws
      cases w with
      | nil => exact absurd rfl hwne
      | cons c w' =>
        rw [hz, List.cons_append]
        exact List.dropWhile_cons_of_neg (by
          simp [hwch c (List.mem_cons_self _ _)])
    have hrev : ((joinSpace (w :: ws)).reverse).dropWhile pyIsSpace =
        (joinSpace (w :: ws)).reverse := by
      rcases joinSpace_reverse_head h with h1 | ⟨c, z, hcz, hcsp⟩
      · simp at h1
      · rw [hcz]
        exact List.dropWhile_cons_of_neg (by simp [hcsp])
    unfold pyStrip
    rw [hdrop, hrev, List.reverse_reverse]

/-- `capNewlinesAux 0` does not change a newline-free list. -/
theorem capNewlinesAux_no_newline {t : List Char} (h : ∀ c ∈ t, c ≠ '\n') :
    capNewlinesAux 0 t = t := by
  induction t with
  | nil => rfl
  | cons c r ih =>
    have hc : c ≠ '\n' := h c (List.mem_cons_self _ _)
    simp only [capNewlinesAux, hc, if_false]
    rw [ih (fun d hd => h d (List.mem_cons_of_mem c hd))]
    simp [capRun]

/-- `capNewlines` does not change a newline-free list. -/
theorem capNewlines_no_newline {t : List Char} (h : ∀ c ∈ t, c ≠ '\n') :
    capNewlines t = t :=
  capNewlinesAux_no_newline h

/-- A `str.replace` with a needle that does not occur is the
identity. -/
theorem replaceChar_not_mem {c : Char} {rep t : List Char} (h : c ∉ t) :
    replaceChar c rep t = t := by
  induction t with
  | nil => rfl
  | cons d r ih =>
    have hd : d ≠ c := fun hdc => h (hdc ▸ List.mem_cons_self d r)
    simp only [replaceChar, hd, if_false]
    rw [ih (fun hc => h (List.mem_cons_of_mem d hc))]
    simp

/-- `html.escape` is the identity on text free of the five escaped
characters. -/
theorem html_escape_of_escape_free {t : List Char}
    (h : ∀ c ∈ t, c ≠ '&' ∧ c ≠ '<' ∧ c ≠ '>' ∧ c ≠ '"' ∧ c ≠ sq) :
    html_escape t = t := by
  unfold html_escape
  rw [replaceChar_not_mem (fun hc => ((h '&' hc).1 rfl)),
    replaceChar_not_mem (fun hc => ((h '<' hc).2.1 rfl)),
    replaceChar_not_mem (fun hc => ((h '>' hc).2.2.1 rfl)),
    replaceChar_not_mem (fun hc => ((h '"' hc).2.2.2.1 rfl)),
    replaceChar_not_mem (fun hc => ((h sq hc).2.2.2.2 rfl))]

/-- Characters survive `pyStrip`. -/
theorem mem_of_mem_pyStrip {c : Char} {t : List Char} (h : c ∈ pyStrip t) :
    c ∈ t := by
  unfold pyStrip at h
  rw [List.mem_reverse] at h
  have h1 := (List.dropWhile_sublist pyIsSpace).mem h
  rw [List.mem_reverse] at h1
  exact (List.dropWhile_sublist pyIsSpace).mem h1

/-- The closed form of `sanitize_text`: the newline-capping step and
the final strip never change the output of the whitespace-collapsing
join, so the whole pipeline is the join of the split of the escaped,
NUL-free text. -/
theorem sanitize_text_eq (s : List Char) :
    sanitize_text s =
      joinSpace (pySplit (html_escape (s.filter (fun c => c ≠ nul)))) := by
  unfold sanitize_text
  by_cases hs : s.isEmpty
  · have hnil : s = [] := by simpa [List.isEmpty_iff] using hs
    subst hnil
    simp [html_escape, replaceChar, pySplit_nil, joinSpace]
  · simp only [hs, if_false]
    have hW := pySplit_words (t := html_escape (s.filter (fun c => c ≠ nul)))
    have hW' : ∀ w ∈ pySplit (html_escape (s.filter (fun c => c ≠ nul))),
        w ≠ [] ∧ ∀ c ∈ w, pyIsSpace c = false :=
      fun w hw => ⟨(hW w hw).1, fun c hc => ((hW w hw).2 c hc).1⟩
    have hnl : ∀ c ∈ joinSpace (pySplit (html_escape (s.filter (fun c => c ≠ nul)))),
        c ≠ '\n' := by
      intro c hc hne
      subst hne
      rcases joinSpace_chars _ hc with h1 | ⟨w, hw, hcw⟩
      · exact absurd h1 (by decide)
      · have := ((hW' w hw).2 _ hcw)
        simp [pyIsSpace] at this
    rw [capNewlines_no_newline hnl, pyStrip_joinSpace hW']
    simp

/-- The output of `sanitize_text` never contains a newline: the
whitespace-collapsing `' '.join(text.split())` step removes every
newline before the newline-capping step runs. -/
theorem newline_not_mem_sanitize (s : List Char) : '\n' ∉ sanitize_text s := by
  rw [sanitize_text_eq]
  intro hc
  have hW := pySplit_words (t := html_escape (s.filter (fun c => c ≠ nul)))
  rcases joinSpace_chars _ hc with h1 | ⟨w, hw, hcw⟩
  · exact absurd h1 (by decide)
  · have := ((hW w hw).2 _ hcw).1
    simp [pyIsSpace] at this

/-- Every character of the sanitized text is a space or a character of
the escaped NUL-free input. -/
theorem sanitize_chars {s : List Char} :
    ∀ c ∈ sanitize_text s,
      c = ' ' ∨ c ∈ html_escape (s.filter (fun c => c ≠ nul)) := by
  rw [sanitize_text_eq]
  intro c hc
  have hW := pySplit_words (t := html_escape (s.filter (fun c => c ≠ nul)))
  rcases joinSpace_chars _ hc with h1 | ⟨w, hw, hcw⟩
  · exact Or.inl h1
  · exact Or.inr ((hW w hw).2 _ hcw).2

/-- On input free of the five HTML-escaped characters, `sanitize_text`
is idempotent. -/
theorem sanitize_idem_of_escape_free {s : List Char}
    (h : ∀ c ∈ s, c ≠ '&' ∧ c ≠ '<' ∧ c ≠ '>' ∧ c ≠ '"' ∧ c ≠ sq) :
    sanitize_text (sanitize_text s) = sanitize_text s := by
  have hfil : ∀ c ∈ s.filter (fun c => c ≠ nul),
      c ≠ '&' ∧ c ≠ '<' ∧ c ≠ '>' ∧ c ≠ '"' ∧ c ≠ sq :=
    fun c hc => h c (List.mem_of_mem_filter hc)
  have hesc : html_escape (s.filter (fun c => c ≠ nul)) =
      s.filter (fun c => c ≠ nul) := html_escape_of_escape_free hfil
  have hs1 : sanitize_text s = joinSpace (pySplit (s.filter (fun c => c ≠ nul))) := by
    rw [sanitize_text_eq, hesc]
  have hW := pySplit_words (t := s.filter (fun c => c ≠ nul))
  have hW' : ∀ w ∈ pySplit (s.filter (fun c => c ≠ nul)),
      w ≠ [] ∧ ∀ c ∈ w, pyIsSpace c = false :=
    fun w hw => ⟨(hW w hw).1, fun c hc => ((hW w hw).2 c hc).1⟩
  -- characters of the first output: a space or a filtered input character
  have hchars : ∀ c ∈ sanitize_text s, c = ' ' ∨ c ∈ s.filter (fun c => c ≠ nul) := by
    rw [hs1]
    intro c hc
    rcases joinSpace_chars _ hc with h1 | ⟨w, hw, hcw⟩
    · exact Or.inl h1
    · exact Or.inr ((hW w hw).2 _ hcw).2
  -- the second run: the NUL filter, the escape and the split-join all fix it
  have hnonul : ∀ c ∈ sanitize_text s, decide (c ≠ nul) = true := by
    intro c hc
    rcases hchars c hc with h1 | h2
    · subst h1; decide
    · exact (List.mem_filter.mp h2).2
  have hesc2 : ∀ c ∈ sanitize_text s,
      c ≠ '&' ∧ c ≠ '<' ∧ c ≠ '>' ∧ c ≠ '"' ∧ c ≠ sq := by
    intro c hc
    rcases hchars c hc with h1 | h2
    · subst h1; refine ⟨by decide, by decide, by decide, by decide, by decide⟩
    · exact hfil c h2
  rw [sanitize_text_eq (sanitize_text s), List.filter_eq_self.mpr hnonul,
    html_escape_of_escape_free hesc2, hs1,
    pySplit_joinSpace hW']

/-! ### Lemmas about the validators and the Turn Tracker -/

/-- A message that passes `validate_memory_content` has raw length at
most `MAX_MEMORY_SIZE`. -/
theorem validate_memory_content_length {s : List Char}
    (h : (validate_memory_content s).1 = true) : s.length ≤ MAX_MEMORY_SIZE := by
  unfold validate_memory_content at h
  split at h
  · simp at h
  · split at h
    · simp at h
    · split at h
      · simp at h
      · next h3 => exact Nat.le_of_not_lt h3

/-- Adding one `'x'` in front changes no suspicious-pattern search:
every pattern of the set fails immediately at an `'x'`. -/
theorem contains_suspicious_cons_x (t : List Char) :
    contains_suspicious_patterns ('x' :: t) = contains_suspicious_patterns t := rfl

/-- No run of `'x'` characters matches a suspicious pattern. -/
theorem contains_suspicious_replicate_x (n : Nat) :
    contains_suspicious_patterns (List.replicate n 'x') = false := by
  induction n with
  | zero => decide
  | succ k ih => rw [List.replicate_succ, contains_suspicious_cons_x]; exact ih

/-- `pyStrip` fixes a run of `'x'` characters. -/
theorem pyStrip_replicate_x (n : Nat) :
    pyStrip (List.replicate n 'x') = List.replicate n 'x' := by
  have hdrop : (List.replicate n 'x').dropWhile pyIsSpace = List.replicate n 'x' := by
    cases n with
    | zero => rfl
    | succ k =>
      rw [List.replicate_succ]
      exact List.dropWhile_cons_of_neg (by decide)
  unfold pyStrip
  rw [hdrop, List.reverse_replicate, hdrop, List.reverse_replicate]

/-- A run of 10000 `'x'` characters passes `validate_memory_content`. -/
theorem validate_memory_content_replicate_x :
    validate_memory_content (List.replicate 10000 'x') = (true, none) := by
  unfold validate_memory_content
  rw [pyStrip_replicate_x]
  have hne : (List.replicate 10000 'x').isEmpty = false := by
    have h10 : (List.replicate 10000 'x').length = 10000 := List.length_replicate 10000 'x'
    cases hr : List.replicate 10000 'x' with
    | nil => rw [hr] at h10; simp at h10
    | cons c l => rfl
  have hlen : (List.replicate 10000 'x').length = 10000 := List.length_replicate 10000 'x'
  rw [hne, contains_suspicious_replicate_x, hlen]
  simp [MIN_MEMORY_SIZE, MAX_MEMORY_SIZE]

/-- When both sides individually pass `validate_memory_content`, the
combined-size guard of `validate_conversation_data` cannot fire—each
passing side has length at most `MAX_MEMORY_SIZE`—and the conversation
is accepted. -/
theorem validate_conversation_of_both_valid {u a : List Char}
    (hu : (validate_memory_content u).1 = true)
    (ha : (validate_memory_content a).1 = true) :
    validate_conversation_data u a = (true, none) := by
  have hul := validate_memory_content_length hu
  have hal := validate_memory_content_length ha
  unfold validate_conversation_data
  cases hvu : validate_memory_content u with
  | mk bu eu =>
    rw [hvu] at hu; simp at hu; subst hu
    cases hva : validate_memory_content a with
    | mk ba ea =>
      rw [hva] at ha; simp at ha; subst ha
      have hg : ¬(MAX_MEMORY_SIZE * 2 < u.length + a.length) := by
        unfold MAX_MEMORY_SIZE at hul hal ⊢
        omega
      simp [hg]

/-- Appending an assistant message always appends to the buffer and
emits the turn formed with the nearest preceding user message, found by
the backward scan, when one exists. -/
theorem auto_save_assistant_eq (h : List Message) (a : String) (t : Nat) :
    auto_save_message h "assistant" a none t =
      (h ++ [⟨"assistant", a, t⟩], .savedMessage "assistant"
        ((h.reverse.find? (fun m => m.role == "user")).map (fun u => (u.content, a)))) := by
  unfold auto_save_message
  rw [if_neg (by decide : ¬("assistant" = "conversation"))]
  cases h with
  | nil => simp
  | cons m h' =>
    have hlen : 2 ≤ ((m :: h') ++ [(⟨"assistant", a, t⟩ : Message)]).length := by simp
    rw [if_pos ⟨rfl, hlen⟩]
    have hlen1 : ((m :: h') ++ [(⟨"assistant", a, t⟩ : Message)]).length - 1 =
        (m :: h').length := by simp
    rw [hlen1, List.take_left]
    cases hf : (m :: h').reverse.find? (fun x => x.role == "user") with
    | none => simp [hf]
    | some u => simp [hf]

/-! ## The claims -/

/-- C1, counterexample: `sanitize_text` is not idempotent.  On the
input `"&"` the first pass yields `"&amp;"` and the second pass
re-escapes the ampersand, yielding the different string
`"&amp;amp;"`. -/
theorem sanitize_not_idempotent_amp :
    (sanitize_text (sanitize_text ['&']) == sanitize_text ['&']) = false ∧
    sanitize_text ['&'] = "&amp;".toList ∧
    sanitize_text (sanitize_text ['&']) = "&amp;amp;".toList := by
  refine ⟨by decide, by decide, by decide⟩

/-- C1 (amended): `sanitize_text` is idempotent on every input free of
the five characters escaped by `html.escape` (`&`, `<`, `>`, `"` and
the apostrophe); on inputs containing them, re-sanitizing re-escapes
the ampersands introduced by the first pass. -/
theorem sanitize_idempotent_escape_free {s : List Char}
    (h : ∀ c ∈ s, c ≠ '&' ∧ c ≠ '<' ∧ c ≠ '>' ∧ c ≠ '"' ∧ c ≠ sq) :
    sanitize_text (sanitize_text s) = sanitize_text s :=
  sanitize_idem_of_escape_free h

/-- C1 witness: idempotence at the concrete escape-free input
`"hello   world"`. -/
theorem sanitize_idempotent_escape_free_witness :
    sanitize_text (sanitize_text "hello   world".toList) =
      sanitize_text "hello   world".toList :=
  sanitize_idempotent_escape_free (by decide)

/-- C2, counterexample: `validate_conversation_data("x"*10000, "x"*1)`
is valid — the combined length 10001 does not exceed 20000, so the
combined-size guard does not fire and the claimed rejection does not
happen. -/
theorem validate_conversation_combined_example_valid :
    validate_conversation_data (List.replicate 10000 'x') (List.replicate 1 'x') =
      (true, none) :=
  validate_conversation_of_both_valid
    (by rw [validate_memory_content_replicate_x])
    (by decide)

/-- C2 (amended): whenever both messages individually pass
`validate_memory_content`, each has raw length at most 10000, so the
combined raw length never exceeds 20000 and the combined-size guard can
never fire: the result is valid.  In particular the spec example
`("x"*10000, "x"*1)` is valid, not invalid. -/
theorem validate_conversation_combined_guard_unreachable {u a : List Char}
    (hu : (validate_memory_content u).1 = true)
    (ha : (validate_memory_content a).1 = true) :
    validate_conversation_data u a = (true, none) :=
  validate_conversation_of_both_valid hu ha

/-- C2 witness: two small passing messages give a valid
conversation. -/
theorem validate_conversation_combined_guard_unreachable_witness :
    validate_conversation_data "hi".toList "yo".toList = (true, none) :=
  validate_conversation_combined_guard_unreachable (by decide) (by decide)

/-- C3: appending an assistant message pairs it with the nearest
preceding user-role message (backward scan skipping non-user roles) and
never removes that user message from the buffer.  The general equation
is followed by the two spec scenarios: `user Q1, user Q2, assistant A1`
pairs with `Q2`; after `user Q1, assistant A1` (which pairs with `Q1`
and keeps it buffered), a second assistant message `A2` pairs with `Q1`
again. -/
theorem auto_save_pairs_nearest_user :
    (∀ (h : List Message) (a : String) (t : Nat),
      auto_save_message h "assistant" a none t =
        (h ++ [⟨"assistant", a, t⟩], .savedMessage "assistant"
          ((h.reverse.find? (fun m => m.role == "user")).map
            (fun u => (u.content, a))))) ∧
    (auto_save_message [⟨"user", "Q1", 0⟩, ⟨"user", "Q2", 1⟩]
        "assistant" "A1" none 2).2 =
      .savedMessage "assistant" (some ("Q2", "A1")) ∧
    auto_save_message [⟨"user", "Q1", 0⟩] "assistant" "A1" none 1 =
      ([⟨"user", "Q1", 0⟩, ⟨"assistant", "A1", 1⟩],
        .savedMessage "assistant" (some ("Q1", "A1"))) ∧
    (auto_save_message [⟨"user", "Q1", 0⟩, ⟨"assistant", "A1", 1⟩]
        "assistant" "A2" none 2).2 =
      .savedMessage "assistant" (some ("Q1", "A2")) :=
  ⟨auto_save_assistant_eq, rfl, rfl, rfl⟩

/-- C4, counterexample: a paragraph break is not preserved.  The input
`"a\n\nb"` contains two consecutive newlines, but `sanitize_text` maps
it to `"a b"`, which contains no newline at all: the
whitespace-collapsing step removes every newline before the
newline-capping step runs. -/
theorem sanitize_paragraph_not_preserved :
    ("a\n\nb".toList.contains '\n') = true ∧
    sanitize_text "a\n\nb".toList = "a b".toList ∧
    ((sanitize_text "a\n\nb".toList).contains '\n') = false := by
  refine ⟨by decide, by decide, by decide⟩

/-- C4 (amended): `sanitize_text` collapses every whitespace run —
newlines included — to a single space and trims; paragraph breaks are
not preserved, and the output never contains a newline, making the
newline-capping step dead code. -/
theorem sanitize_no_newline (s : List Char) :
    ((sanitize_text s).contains '\n') = false := by
  simpa using newline_not_mem_sanitize s

/-- C5: an assistant message appended to a buffer holding no user-role
message (in particular an empty buffer) emits no turn and raises no
failure; the message is still appended to the history. -/
theorem auto_save_assistant_no_user {h : List Message} {a : String} {t : Nat}
    (hu : ∀ m ∈ h, m.role ≠ "user") :
    auto_save_message h "assistant" a none t =
      (h ++ [⟨"assistant", a, t⟩], .savedMessage "assistant" none) := by
  rw [auto_save_assistant_eq]
  have hf : h.reverse.find? (fun m => m.role == "user") = none :=
    List.find?_eq_none.mpr (fun m hm => by
      simpa using hu m (List.mem_reverse.mp hm))
  rw [hf]
  rfl

/-- C5 witness: the empty-buffer scenario of the spec. -/
theorem auto_save_assistant_no_user_witness :
    auto_save_message [] "assistant" "A1" none 0 =
      ([⟨"assistant", "A1", 0⟩], .savedMessage "assistant" none) :=
  auto_save_assistant_no_user (by simp)

/-- C6, counterexample: the structured-conversation payload `"{}"`
parses as JSON but has no `user`/`assistant` sides, yet the operation
succeeds and silently produces a degenerate turn with two empty
contents instead of failing. -/
theorem conversation_empty_obj_silent_turn :
    auto_save_message [] "conversation" "\x7b\x7d" (some (.obj [])) 0 =
      ([], .savedConversation (.str "") (.str "")) := rfl

/-- C6 (amended): only payloads that fail JSON decoding fail with the
distinct invalid-JSON error; a payload decoding to a JSON object always
produces a turn whose sides default to empty strings when the `user` or
`assistant` keys are missing (silently degenerate), and the
conversation branch never touches the chat-history buffer. -/
theorem conversation_branch_behavior :
    (∀ (h : List Message) (content : String) (t : Nat),
      auto_save_message h "conversation" content none t =
        (h, .invalidJsonError)) ∧
    (∀ (h : List Message) (content : String)
      (fields : List (String × PyJson)) (t : Nat),
      auto_save_message h "conversation" content (some (.obj fields)) t =
        (h, .savedConversation (dictGet fields "user" (.str ""))
          (dictGet fields "assistant" (.str "")))) :=
  ⟨fun _ _ _ => rfl, fun _ _ _ _ => rfl⟩

/-- C7, counterexample: `auto_save_message` runs no validation, so an
empty user message is buffered and paired as-is; the emitted turn has a
user side that fails `validate_memory_content`. -/
theorem turn_user_content_fails_validation :
    (auto_save_message ((auto_save_message [] "user" "" none 0).1)
        "assistant" "x" none 1).2 =
      .savedMessage "assistant" (some ("", "x")) ∧
    (validate_memory_content "".toList).1 = false :=
  ⟨rfl, rfl⟩

/-- C7 (amended): no message content is vetted by the
Validator/Sanitizer on the `auto_save_message` path; the emitted turn
carries the raw buffered content unchanged, so its fields need not pass
content validation. -/
theorem auto_save_raw_content_turn (h : List Message) (c a : String)
    (t₁ t₂ : Nat) :
    auto_save_message (h ++ [⟨"user", c, t₁⟩]) "assistant" a none t₂ =
      (h ++ [⟨"user", c, t₁⟩, ⟨"assistant", a, t₂⟩],
        .savedMessage "assistant" (some (c, a))) := by
  rw [auto_save_assistant_eq, List.reverse_append]
  simp [List.find?]

/-- C8: `contains_sql_patterns` ignores bare SQL keywords in plain
English sentences (`select`, `create`, `update` without SQL syntax
shape) and flags statement-injection syntax such as
`'; DROP TABLE users; --`. -/
theorem contains_sql_patterns_examples :
    contains_sql_patterns
      ("Let".toList ++ [sq] ++ "s select the best option".toList) = false ∧
    contains_sql_patterns ([sq] ++ "; DROP TABLE users; --".toList) = true ∧
    contains_sql_patterns "Please create a new plan".toList = false ∧
    contains_sql_patterns "Can you update the document for me".toList = false := by
  refine ⟨by decide, by decide, by decide, by decide⟩

/-- C9: `validate_limit` accepts every integer in `[1, 100]` with both
boundaries included, and rejects `0`, `101` and non-integer input. -/
theorem validate_limit_range :
    (∀ n : Int, 1 ≤ n → n ≤ 100 → validate_limit (.intVal n) = (true, none)) ∧
    (validate_limit (.intVal 0)).1 = false ∧
    (validate_limit (.intVal 101)).1 = false ∧
    (validate_limit .nonInt).1 = false := by
  refine ⟨?_, by decide, by decide, by decide⟩
  intro n h1 h2
  simp only [validate_limit]
  rw [if_neg (by omega), if_neg (show ¬(MAX_SEARCH_LIMIT < n) by
    unfold MAX_SEARCH_LIMIT; omega)]

/-- C9 witness: the boundary values and an interior value are
valid. -/
theorem validate_limit_range_witness :
    validate_limit (.intVal 1) = (true, none) ∧
    validate_limit (.intVal 50) = (true, none) ∧
    validate_limit (.intVal 100) = (true, none) :=
  ⟨validate_limit_range.1 1 (by decide) (by decide),
    validate_limit_range.1 50 (by decide) (by decide),
    validate_limit_range.1 100 (by decide) (by decide)⟩

/-- C10: the minimum-length branch of `validate_memory_content` is
unreachable — any content passing the emptiness check has length at
least `MIN_MEMORY_SIZE = 1`, so the too-short error is never
returned. -/
theorem validate_memory_too_short_unreachable (s : List Char) :
    ((validate_memory_content s).2 ==
      some "Memory content too short (minimum 1 character)") = false := by
  unfold validate_memory_content
  split
  · decide
  next h1 =>
    split
    next h2 =>
      exfalso
      have hz : s.length = 0 := by
        unfold MIN_MEMORY_SIZE at h2; omega
      have hs : s = [] := List.eq_nil_of_length_eq_zero hz
      subst hs
      simp at h1
    next h2 =>
      split
      · decide
      · split
        · decide
        · decide

end Mem0

example : Mem0.contains_sql_patterns (Mem0.sq :: "; DROP TABLE users; --".toList) = true := by decide

example : Mem0.contains_sql_patterns ("Let".toList ++ [Mem0.sq] ++ "s select the best option".toList) = false := by decide

example : Mem0.contains_suspicious_patterns "<script>alert(1)</script>".toList = true := by decide

example : Mem0.contains_suspicious_patterns "hello world".toList = false := by decide
